import Mathlib

/-!
Shallow embedding of the two Terraform resource adapters in
aws/resource_aws_route53_vpc_association_authorization.go:
the Route 53 VPC association authorization handlers and the ECS
capacity provider handlers.

Go strings are modelled as lists of characters (GoStr).  Pointer-typed
SDK fields (*string, *int64) are modelled as Option values, with
aws.StringValue / aws.Int64Value dereferencing to the zero value on nil.
Network calls made through the SDK connection are passed in as explicit
function or value parameters.  Go errors are the inductive type GoErr.
-/

abbrev GoStr := List Char

/-- Model of the Go error values produced or consumed by this file.
An awsApi value models an awserr.Error with a code and a message; wrapped
models fmt.Errorf wrapping an inner error with a context message;
unexpectedIdFormat models the parse error of the identifier codec, echoing
the offending identifier. -/
inductive GoErr where
  | unexpectedIdFormat (id : GoStr)
  | awsApi (code msg : GoStr)
  | invalidParams (context : GoStr)
  | wrapped (msg : GoStr) (inner : GoErr)
  deriving DecidableEq, Repr

/-- Model of aws.StringValue: dereference a *string, nil becomes the empty string. -/
def stringValue : Option GoStr → GoStr
  | none => []
  | some s => s

/-- Model of aws.Int64Value: dereference a *int64, nil becomes 0. -/
def int64Value : Option Int → Int
  | none => 0
  | some n => n

/-- Model of Go strings.Split with a one-character separator: splits the
string around every occurrence of the separator, keeping empty segments,
and yields one segment even for the empty string. -/
def goSplit (sep : Char) : GoStr → List GoStr
  | [] => [[]]
  | c :: rest =>
      let r := goSplit sep rest
      if c = sep then [] :: r else (c :: r.headD []) :: r.tail

/-- resourceAwsRoute53VPCAssociationAuthorizationParseId from the source:
split the identifier on the colon; unless there are exactly two parts and
both are non-empty, return empty strings and a format error; otherwise
return the two parts and no error (Go returns the triple
(zoneID, vpcID, err)). -/
def resourceAwsRoute53VPCAssociationAuthorizationParseId (id : GoStr) :
    GoStr × GoStr × Option GoErr :=
  match goSplit ':' id with
  | [p0, p1] =>
      if p0 = [] ∨ p1 = [] then ([], [], some (.unexpectedIdFormat id))
      else (p0, p1, none)
  | _ => ([], [], some (.unexpectedIdFormat id))

/-- The identifier written by the Create handler via d.SetId of
fmt.Sprintf of zoneID, a colon, and vpcID. -/
def route53AuthEncodeId (zoneID vpcID : GoStr) : GoStr :=
  zoneID ++ ':' :: vpcID

-- Helper lemmas about goSplit.

theorem goSplit_ne_nil (sep : Char) (s : GoStr) : goSplit sep s ≠ [] := by
  cases s with
  | nil => simp [goSplit]
  | cons c rest =>
      simp only [goSplit]
      split <;> simp

theorem goSplit_no_sep (sep : Char) (s : GoStr) (h : sep ∉ s) :
    goSplit sep s = [s] := by
  induction s with
  | nil => rfl
  | cons c rest ih =>
      simp only [List.mem_cons, not_or] at h
      have hne : ¬ c = sep := fun hc => h.1 hc.symm
      simp [goSplit, hne, ih h.2]

theorem goSplit_append_sep (sep : Char) (a b : GoStr) (ha : sep ∉ a) :
    goSplit sep (a ++ sep :: b) = a :: goSplit sep b := by
  induction a with
  | nil => simp [goSplit]
  | cons c a' ih =>
      simp only [List.mem_cons, not_or] at ha
      have hne : ¬ c = sep := fun hc => ha.1 hc.symm
      have h' := ih ha.2
      simp [goSplit, hne, h']

theorem goSplit_singleton (sep : Char) (s x : GoStr)
    (h : goSplit sep s = [x]) : s = x ∧ sep ∉ x := by
  induction s generalizing x with
  | nil =>
      simp [goSplit] at h
      subst h
      simp
  | cons c rest ih =>
      cases hrec : goSplit sep rest with
      | nil => exact absurd hrec (goSplit_ne_nil sep rest)
      | cons hd tl =>
          by_cases hc : c = sep
          · simp [goSplit, hrec, hc] at h
          · simp [goSplit, hrec, hc] at h
            obtain ⟨hx, htl⟩ := h
            subst htl
            obtain ⟨hrest, hsep⟩ := ih hd hrec
            subst hrest
            subst hx
            refine ⟨rfl, ?_⟩
            intro hmem
            rcases List.mem_cons.mp hmem with h1 | h2
            · exact hc h1.symm
            · exact hsep h2

theorem goSplit_pair (sep : Char) (s a b : GoStr)
    (h : goSplit sep s = [a, b]) :
    s = a ++ sep :: b ∧ sep ∉ a ∧ sep ∉ b := by
  induction s generalizing a with
  | nil => simp [goSplit] at h
  | cons c rest ih =>
      cases hrec : goSplit sep rest with
      | nil => exact absurd hrec (goSplit_ne_nil sep rest)
      | cons hd tl =>
          by_cases hc : c = sep
          · simp [goSplit, hrec, hc] at h
            obtain ⟨ha, hb, htl⟩ := h
            subst htl
            subst ha
            subst hb
            obtain ⟨hrest, hsepb⟩ := goSplit_singleton sep rest _ hrec
            subst hrest
            exact ⟨by simp [hc], by simp, hsepb⟩
          · simp [goSplit, hrec, hc] at h
            obtain ⟨ha, htl⟩ := h
            subst htl
            obtain ⟨hrest, hhd, hb⟩ := ih hd hrec
            subst hrest
            subst ha
            refine ⟨by simp, ?_, hb⟩
            intro hmem
            rcases List.mem_cons.mp hmem with h1 | h2
            · exact hc h1.symm
            · exact hhd h2

-- Route 53 VPC association authorization: remaining definitions.

/-- Model of the SDK struct route53.VPC: two *string fields. -/
structure VPC where
  vpcId : Option GoStr
  vpcRegion : Option GoStr
  deriving DecidableEq, Repr

/-- Validation performed by the external SDK on
ListVPCAssociationAuthorizationsInput before the network call is issued:
the HostedZoneId field is required and must have length at least 1.
The MaxResults and NextToken fields are left unset by this repository, so
their checks never fire and are omitted. -/
def listVPCAssociationAuthorizationsInputValidate (hostedZoneId : Option GoStr) :
    Option GoErr :=
  match hostedZoneId with
  | none => some (.invalidParams (String.toList "missing required field HostedZoneId"))
  | some z =>
      if z.length < 1 then
        some (.invalidParams (String.toList "minimum field size of 1 for HostedZoneId"))
      else none

/-- route53GetVPCAssociation from the source.  The outcome of the single
network call conn.ListVPCAssociationAuthorizations is passed in as the
listCall parameter (an error, or the single page of VPC entries).  The Go
function validates the input, issues the call, then linearly scans the
returned entries for the first one whose VPCId equals vpcID, returning
nil (here none) when no entry matches and propagating call errors. -/
def route53GetVPCAssociation (listCall : Except GoErr (List VPC))
    (zoneID vpcID : GoStr) : Except GoErr (Option VPC) :=
  match listVPCAssociationAuthorizationsInputValidate (some zoneID) with
  | some e =>
      .error (.wrapped (String.toList "Bad input for List VPC Association Authorizations") e)
  | none =>
      match listCall with
      | .error e => .error e
      | .ok vpcs => .ok (vpcs.find? fun zoneVPC => decide (vpcID = stringValue zoneVPC.vpcId))

/-- The local state record of the authorization resource: the stored
identifier plus the three schema attributes.  An empty id models the
cleared state written by d.SetId of the empty string. -/
structure Route53AuthResourceData where
  id : GoStr
  zone_id : GoStr
  vpc_id : GoStr
  vpc_region : GoStr
  deriving DecidableEq, Repr

/-- Model of the Go helper isAWSErr: the error must be an awserr.Error
whose code equals the given code and whose message contains the given
message (containment is the infix relation; the empty message always
matches, as with strings.Contains). -/
def isAWSErr (e : Option GoErr) (code msg : GoStr) : Bool :=
  match e with
  | some (.awsApi c m) => decide (c = code) && decide (msg <:+: m)
  | _ => false

/-- The AWS error code route53.ErrCodeNoSuchHostedZone. -/
def errCodeNoSuchHostedZone : GoStr := String.toList "NoSuchHostedZone"

/-- resourceAwsRoute53CreateVPCAssociationAuthorizationRead from the
source.  The remote parameter gives, per hosted zone id, the outcome of
the list call.  The handler parses the stored id, performs the lookup,
clears the id on a NoSuchHostedZone error or a nil entry, propagates any
other error wrapped with context, and otherwise writes the three
attributes from the returned entry. -/
def resourceAwsRoute53CreateVPCAssociationAuthorizationRead
    (remote : GoStr → Except GoErr (List VPC))
    (d : Route53AuthResourceData) : Route53AuthResourceData × Option GoErr :=
  match resourceAwsRoute53VPCAssociationAuthorizationParseId d.id with
  | (_, _, some e) => (d, some e)
  | (zoneID, vpcID, none) =>
      match route53GetVPCAssociation (remote zoneID) zoneID vpcID with
      | .error e =>
          if isAWSErr (some e) errCodeNoSuchHostedZone [] then
            ({ d with id := [] }, none)
          else
            (d, some (.wrapped
              (String.toList "error getting Route 53 VPC Association Authorization for Hosted Zone") e))
      | .ok none => ({ d with id := [] }, none)
      | .ok (some vpc) =>
          ({ d with vpc_id := stringValue vpc.vpcId,
                    vpc_region := stringValue vpc.vpcRegion,
                    zone_id := zoneID }, none)

/-- Model of the SDK struct route53.CreateVPCAssociationAuthorizationInput
with its nested route53.VPC flattened into the record. -/
structure CreateVPCAssociationAuthorizationInput where
  hostedZoneId : Option GoStr
  vpcId : Option GoStr
  vpcRegion : Option GoStr
  deriving DecidableEq, Repr

/-- The request struct built by the Create handler: HostedZoneId and VPCId
from the configuration, VPCRegion first set to the ambient client region
and then overridden by the vpc_region attribute when that is non-empty. -/
def route53CreateVPCAuthInput (region : GoStr) (d : Route53AuthResourceData) :
    CreateVPCAssociationAuthorizationInput :=
  let input : CreateVPCAssociationAuthorizationInput :=
    { hostedZoneId := some d.zone_id, vpcId := some d.vpc_id, vpcRegion := some region }
  if d.vpc_region ≠ [] then { input with vpcRegion := some d.vpc_region } else input

/-- resourceAwsRoute53CreateVPCAssociationAuthorizationCreate from the
source.  The createCall parameter is the outcome of
conn.CreateVPCAssociationAuthorization on the built input; region is the
ambient client region from meta.  On call failure the wrapped error is
returned; on success the composite id is stored and the Read handler is
delegated to. -/
def resourceAwsRoute53CreateVPCAssociationAuthorizationCreate
    (region : GoStr)
    (createCall : CreateVPCAssociationAuthorizationInput → Except GoErr Unit)
    (remote : GoStr → Except GoErr (List VPC))
    (d : Route53AuthResourceData) : Route53AuthResourceData × Option GoErr :=
  let input := route53CreateVPCAuthInput region d
  match createCall input with
  | .error e =>
      (d, some (.wrapped (String.toList "Error creating VPC Association Authorization") e))
  | .ok _ =>
      let d1 := { d with
        id := route53AuthEncodeId (stringValue input.hostedZoneId) (stringValue input.vpcId) }
      resourceAwsRoute53CreateVPCAssociationAuthorizationRead remote d1

/-- Model of the SDK struct route53.DeleteVPCAssociationAuthorizationInput
with its nested route53.VPC flattened into the record. -/
structure DeleteVPCAssociationAuthorizationInput where
  hostedZoneId : Option GoStr
  vpcId : Option GoStr
  vpcRegion : Option GoStr
  deriving DecidableEq, Repr

/-- resourceAwsRoute53CreateVPCAssociationAuthorizationDelete from the
source.  The deleteCall parameter is the outcome of
conn.DeleteVPCAssociationAuthorization on the built input.  Note the
faithful detail: the Go code assigns the error from the call to err but
then returns nil unconditionally, so the call outcome is discarded. -/
def resourceAwsRoute53CreateVPCAssociationAuthorizationDelete
    (deleteCall : DeleteVPCAssociationAuthorizationInput → Except GoErr Unit)
    (d : Route53AuthResourceData) : Route53AuthResourceData × Option GoErr :=
  match resourceAwsRoute53VPCAssociationAuthorizationParseId d.id with
  | (_, _, some e) => (d, some e)
  | (zoneID, vpcID, none) =>
      let input : DeleteVPCAssociationAuthorizationInput :=
        { hostedZoneId := some zoneID, vpcId := some vpcID, vpcRegion := some d.vpc_region }
      let _ := deleteCall input
      (d, none)

-- ECS capacity provider: definitions.

/-- Model of the SDK struct ecs.ManagedScaling: pointer fields. -/
structure ManagedScaling where
  maximumScalingStepSize : Option Int
  minimumScalingStepSize : Option Int
  status : Option GoStr
  targetCapacity : Option Int
  deriving DecidableEq, Repr

/-- Model of the SDK struct ecs.AutoScalingGroupProvider: pointer fields,
with ManagedScaling an optional nested struct. -/
structure AutoScalingGroupProvider where
  autoScalingGroupArn : Option GoStr
  managedTerminationProtection : Option GoStr
  managedScaling : Option ManagedScaling
  deriving DecidableEq, Repr

/-- One element of the generic managed_scaling attribute tree: the four
leaves with their Go zero values standing for unset (0 for ints, the
empty string for strings), exactly as a Terraform map materialises them. -/
structure ManagedScalingConfig where
  maximum_scaling_step_size : Int
  minimum_scaling_step_size : Int
  status : GoStr
  target_capacity : Int
  deriving DecidableEq, Repr

/-- One element of the generic auto_scaling_group_provider attribute tree.
The managed_scaling block is a list of at most one element (MaxItems 1 in
the schema); the empty list is the absent block. -/
structure AutoScalingGroupProviderConfig where
  auto_scaling_group_arn : GoStr
  managed_termination_protection : GoStr
  managed_scaling : List ManagedScalingConfig
  deriving DecidableEq, Repr

/-- expandAutoScalingGroupProvider from the source.  The Go function
indexes element 0 of the configured list unconditionally (a panic on an
empty list, modelled as none), starts from a zero-valued provider struct
and sets each field only when the corresponding leaf is non-zero-valued:
the Go code does this with one independent if statement per field, which
is written here as an if expression per field of the record. -/
def expandAutoScalingGroupProvider (configured : List AutoScalingGroupProviderConfig) :
    Option AutoScalingGroupProvider :=
  match configured with
  | [] => none
  | p :: _ =>
      some
        { autoScalingGroupArn := some p.auto_scaling_group_arn,
          managedTerminationProtection :=
            if p.managed_termination_protection.length > 0 then
              some p.managed_termination_protection
            else none,
          managedScaling :=
            match p.managed_scaling with
            | [] => none
            | ms :: _ =>
                some
                  { maximumScalingStepSize :=
                      if ms.maximum_scaling_step_size ≠ 0 then
                        some ms.maximum_scaling_step_size
                      else none,
                    minimumScalingStepSize :=
                      if ms.minimum_scaling_step_size ≠ 0 then
                        some ms.minimum_scaling_step_size
                      else none,
                    status :=
                      if ms.status.length > 0 then some ms.status else none,
                    targetCapacity :=
                      if ms.target_capacity ≠ 0 then some ms.target_capacity
                      else none } }

/-- flattenAutoScalingGroupProvider from the source.  A nil provider
returns the nil slice (modelled as some of the empty list).  Otherwise the
Go code dereferences provider.ManagedScaling unconditionally while filling
the inner map, so a provider whose ManagedScaling field is nil panics:
the panic is modelled as the outer none.  On a non-nil ManagedScaling the
result is one map whose leaves are the dereferenced field values, with
nil pointers dereferencing to zero values. -/
def flattenAutoScalingGroupProvider (provider : Option AutoScalingGroupProvider) :
    Option (List AutoScalingGroupProviderConfig) :=
  match provider with
  | none => some []
  | some prov =>
      match prov.managedScaling with
      | none => none
      | some pms =>
          some
            [{ auto_scaling_group_arn := stringValue prov.autoScalingGroupArn,
               managed_termination_protection := stringValue prov.managedTerminationProtection,
               managed_scaling :=
                 [{ maximum_scaling_step_size := int64Value pms.maximumScalingStepSize,
                    minimum_scaling_step_size := int64Value pms.minimumScalingStepSize,
                    status := stringValue pms.status,
                    target_capacity := int64Value pms.targetCapacity }] }]

/-- The local state record of the ECS capacity provider resource: the
stored identifier (the ARN) and the name attribute.  The remaining
attributes play no part in the delete and import claims. -/
structure EcsCapacityProviderData where
  id : GoStr
  name : GoStr
  deriving DecidableEq, Repr

/-- The remote API calls the ECS adapter can issue, used as an audit trace
to state that a handler issues no call at all. -/
inductive EcsApiCall where
  | createCapacityProvider
  | describeCapacityProviders
  | updateCapacityProviderTags
  deriving DecidableEq, Repr

/-- Modelled from the spec: schema.Noop, the no-op handler supplied by the
external schema framework and installed as the Delete handler of the ECS
capacity provider resource.  It performs no remote call, does not touch
the state record, and returns nil. -/
def schemaNoop (d : EcsCapacityProviderData) :
    EcsCapacityProviderData × List EcsApiCall × Option GoErr :=
  (d, [], none)

/-- The Delete handler of resourceAwsEcsCapacityProvider: the source
installs schema.Noop directly in the Delete slot of the resource. -/
def resourceAwsEcsCapacityProviderDelete :
    EcsCapacityProviderData → EcsCapacityProviderData × List EcsApiCall × Option GoErr :=
  schemaNoop

/-- Modelled from the spec: the external orchestration engine drops a
resource from tracked state exactly when its Delete handler returns
without error, and keeps it tracked when Delete fails.  The trace of
remote calls issued by the handler is passed through. -/
def engineApplyDelete (tracked : List EcsCapacityProviderData)
    (d : EcsCapacityProviderData) :
    List EcsCapacityProviderData × List EcsApiCall × Option GoErr :=
  match resourceAwsEcsCapacityProviderDelete d with
  | (_, calls, none) =>
      (tracked.filter (fun r => decide (r.id ≠ d.id)), calls, none)
  | (_, calls, some e) => (tracked, calls, some e)

/-- The ambient client context: region, partition and account id carried
by the meta value handed to every handler. -/
structure AWSClientMeta where
  region : GoStr
  partition : GoStr
  accountid : GoStr
  deriving DecidableEq, Repr

/-- Modelled from the spec: the String method of the SDK arn.ARN struct
renders the colon-joined form
arn:PARTITION:SERVICE:REGION:ACCOUNTID:RESOURCE. -/
def arnString (partition service region accountID resource : GoStr) : GoStr :=
  String.toList "arn" ++ ':' :: partition ++ ':' :: service ++ ':' :: region
    ++ ':' :: accountID ++ ':' :: resource

/-- resourceAwsEcsCapacityProviderImport from the source: set the name
attribute to the user-supplied identifier, then replace the identifier
with the ARN built from the ambient partition, region and account id, the
service ecs, and the resource path capacity-provider slash name; return
the single resource and no error. -/
def resourceAwsEcsCapacityProviderImport (meta : AWSClientMeta)
    (d : EcsCapacityProviderData) : List EcsCapacityProviderData × Option GoErr :=
  let d1 := { d with name := d.id }
  let d2 := { d1 with
    id := arnString meta.partition (String.toList "ecs") meta.region meta.accountid
      (String.toList "capacity-provider/" ++ d.id) }
  ([d2], none)

-- Helper lemmas about the identifier codec.

theorem parseId_cases (id : GoStr) :
    (∃ a b : GoStr,
      resourceAwsRoute53VPCAssociationAuthorizationParseId id = (a, b, none)) ∨
    resourceAwsRoute53VPCAssociationAuthorizationParseId id =
      ([], [], some (.unexpectedIdFormat id)) := by
  cases hsp : goSplit ':' id with
  | nil =>
      right
      simp [resourceAwsRoute53VPCAssociationAuthorizationParseId, hsp]
  | cons x t =>
      cases t with
      | nil =>
          right
          simp [resourceAwsRoute53VPCAssociationAuthorizationParseId, hsp]
      | cons y t2 =>
          cases t2 with
          | cons z t3 =>
              right
              simp [resourceAwsRoute53VPCAssociationAuthorizationParseId, hsp]
          | nil =>
              by_cases hxy : x = [] ∨ y = []
              · right
                simp [resourceAwsRoute53VPCAssociationAuthorizationParseId, hsp, hxy]
              · left
                refine ⟨x, y, ?_⟩
                simp [resourceAwsRoute53VPCAssociationAuthorizationParseId, hsp, hxy]

theorem parseId_ok_shape (id a b : GoStr)
    (h : resourceAwsRoute53VPCAssociationAuthorizationParseId id = (a, b, none)) :
    id = a ++ ':' :: b ∧ a ≠ [] ∧ b ≠ [] ∧ ':' ∉ a ∧ ':' ∉ b := by
  unfold resourceAwsRoute53VPCAssociationAuthorizationParseId at h
  cases hsp : goSplit ':' id with
  | nil =>
      rw [hsp] at h
      simp at h
  | cons x t =>
      cases t with
      | nil =>
          rw [hsp] at h
          simp at h
      | cons y t2 =>
          cases t2 with
          | cons z t3 =>
              rw [hsp] at h
              simp at h
          | nil =>
              rw [hsp] at h
              by_cases hxy : x = [] ∨ y = []
              · simp [hxy] at h
              · simp only [if_neg hxy] at h
                have hx : x = a := congrArg (fun t => t.1) h
                have hy : y = b := congrArg (fun t => t.2.1) h
                subst hx
                subst hy
                push_neg at hxy
                obtain ⟨hid, hca, hcb⟩ := goSplit_pair ':' id _ _ hsp
                exact ⟨hid, hxy.1, hxy.2, hca, hcb⟩

/-- C1: for non-empty strings a and b containing no colon, parsing the
composite identifier written by the Create handler (zoneID, a colon,
vpcID) returns exactly (a, b) with no error. -/
theorem parseId_roundtrip (a b : GoStr) (ha : a ≠ []) (hb : b ≠ [])
    (hca : ':' ∉ a) (hcb : ':' ∉ b) :
    resourceAwsRoute53VPCAssociationAuthorizationParseId (route53AuthEncodeId a b)
      = (a, b, none) := by
  have hsplit : goSplit ':' (a ++ ':' :: b) = [a, b] := by
    rw [goSplit_append_sep ':' a b hca, goSplit_no_sep ':' b hcb]
  simp [resourceAwsRoute53VPCAssociationAuthorizationParseId, route53AuthEncodeId,
    hsplit, ha, hb]

theorem parseId_roundtrip_witness :
    resourceAwsRoute53VPCAssociationAuthorizationParseId
      (route53AuthEncodeId (String.toList "Z1") (String.toList "V1"))
      = (String.toList "Z1", String.toList "V1", none) :=
  parseId_roundtrip (String.toList "Z1") (String.toList "V1")
    (by decide) (by decide) (by decide) (by decide)

/-- C2: the parser rejects the empty identifier, an identifier without a
colon, identifiers with an empty zone or vpc segment, every identifier
containing more than one colon (no silent truncation), and in general
every identifier that is not two non-empty colon-free parts joined by one
colon; rejection returns empty strings and the format error echoing the
input. -/
theorem parseId_rejection :
    (resourceAwsRoute53VPCAssociationAuthorizationParseId [] =
      ([], [], some (.unexpectedIdFormat []))) ∧
    (resourceAwsRoute53VPCAssociationAuthorizationParseId (String.toList "onlyonepart") =
      ([], [], some (.unexpectedIdFormat (String.toList "onlyonepart")))) ∧
    (resourceAwsRoute53VPCAssociationAuthorizationParseId (String.toList ":missingzone") =
      ([], [], some (.unexpectedIdFormat (String.toList ":missingzone")))) ∧
    (resourceAwsRoute53VPCAssociationAuthorizationParseId (String.toList "missingvpc:") =
      ([], [], some (.unexpectedIdFormat (String.toList "missingvpc:")))) ∧
    (∀ id : GoStr, 2 ≤ id.count ':' →
      resourceAwsRoute53VPCAssociationAuthorizationParseId id =
        ([], [], some (.unexpectedIdFormat id))) ∧
    (∀ id : GoStr,
      ¬ (∃ a b : GoStr, a ≠ [] ∧ b ≠ [] ∧ ':' ∉ a ∧ ':' ∉ b ∧ id = a ++ ':' :: b) →
      resourceAwsRoute53VPCAssociationAuthorizationParseId id =
        ([], [], some (.unexpectedIdFormat id))) ∧
    (∀ id a b : GoStr,
      resourceAwsRoute53VPCAssociationAuthorizationParseId id = (a, b, none) →
      id = a ++ ':' :: b ∧ a ≠ [] ∧ b ≠ [] ∧ ':' ∉ a ∧ ':' ∉ b) := by
  have hgen : ∀ id : GoStr,
      ¬ (∃ a b : GoStr, a ≠ [] ∧ b ≠ [] ∧ ':' ∉ a ∧ ':' ∉ b ∧ id = a ++ ':' :: b) →
      resourceAwsRoute53VPCAssociationAuthorizationParseId id =
        ([], [], some (.unexpectedIdFormat id)) := by
    intro id hno
    rcases parseId_cases id with ⟨a, b, hok⟩ | herr
    · obtain ⟨hid, ha, hb, hca, hcb⟩ := parseId_ok_shape id a b hok
      exact absurd ⟨a, b, ha, hb, hca, hcb, hid⟩ hno
    · exact herr
  refine ⟨by decide, by decide, by decide, by decide, ?_, hgen, parseId_ok_shape⟩
  intro id hcount
  apply hgen
  rintro ⟨a, b, ha, hb, hca, hcb, hid⟩
  have hone : id.count ':' = 1 := by
    subst hid
    simp [List.count_append, List.count_eq_zero.mpr hca, List.count_eq_zero.mpr hcb]
  omega

theorem parseId_rejection_witness :
    2 ≤ (String.toList "a:b:c").count ':' ∧
    resourceAwsRoute53VPCAssociationAuthorizationParseId (String.toList "a:b:c") =
      ([], [], some (.unexpectedIdFormat (String.toList "a:b:c"))) :=
  ⟨by decide, parseId_rejection.2.2.2.2.1 (String.toList "a:b:c") (by decide)⟩

-- Helper lemma: find? returns the first match.

theorem find?_first {α : Type} (p : α → Bool) (l₁ : List α) (v : α) (l₂ : List α)
    (h₁ : ∀ u ∈ l₁, p u = false) (hv : p v = true) :
    (l₁ ++ v :: l₂).find? p = some v := by
  induction l₁ with
  | nil =>
      simp only [List.nil_append]
      exact List.find?_cons_of_pos _ hv
  | cons u us ih =>
      rw [List.cons_append, List.find?_cons_of_neg]
      · exact ih fun x hx => h₁ x (List.mem_cons_of_mem u hx)
      · simp [h₁ u (List.mem_cons_self u us)]

theorem route53Validate_ok (zoneID : GoStr) (hz : zoneID ≠ []) :
    listVPCAssociationAuthorizationsInputValidate (some zoneID) = none := by
  have hlen : 0 < zoneID.length := List.length_pos.mpr hz
  simp only [listVPCAssociationAuthorizationsInputValidate]
  rw [if_neg (by omega)]

theorem route53Get_found (zoneID vpcID : GoStr) (hz : zoneID ≠ [])
    (l₁ : List VPC) (v : VPC) (l₂ : List VPC)
    (hv : stringValue v.vpcId = vpcID)
    (hnone : ∀ u ∈ l₁, stringValue u.vpcId ≠ vpcID) :
    route53GetVPCAssociation (.ok (l₁ ++ v :: l₂)) zoneID vpcID = .ok (some v) := by
  unfold route53GetVPCAssociation
  rw [route53Validate_ok zoneID hz]
  have hfind : (l₁ ++ v :: l₂).find? (fun z => decide (vpcID = stringValue z.vpcId))
      = some v := by
    apply find?_first
    · intro u hu
      exact decide_eq_false fun heq => hnone u hu heq.symm
    · exact decide_eq_true hv.symm
  simp [hfind]

theorem route53Get_not_found (zoneID vpcID : GoStr) (hz : zoneID ≠ [])
    (vpcs : List VPC) (hnone : ∀ u ∈ vpcs, stringValue u.vpcId ≠ vpcID) :
    route53GetVPCAssociation (.ok vpcs) zoneID vpcID = .ok none := by
  unfold route53GetVPCAssociation
  rw [route53Validate_ok zoneID hz]
  have hfind : vpcs.find? (fun z => decide (vpcID = stringValue z.vpcId)) = none := by
    rw [List.find?_eq_none]
    intro x hx
    simp only [decide_eq_true_eq]
    exact fun heq => hnone x hx heq.symm
  simp [hfind]

theorem route53Get_error (zoneID vpcID : GoStr) (hz : zoneID ≠ []) (e : GoErr) :
    route53GetVPCAssociation (.error e) zoneID vpcID = .error e := by
  unfold route53GetVPCAssociation
  rw [route53Validate_ok zoneID hz]

/-- C3: with a valid zone id, the lookup over the single returned page
yields the first entry whose VPCId equals the target when one exists,
yields the explicit not-found value (ok none) when no entry matches, and
propagates a transport error of the list call as an error. -/
theorem route53GetVPCAssociation_scan (zoneID vpcID : GoStr) (hz : zoneID ≠ []) :
    (∀ (l₁ : List VPC) (v : VPC) (l₂ : List VPC),
        stringValue v.vpcId = vpcID →
        (∀ u ∈ l₁, stringValue u.vpcId ≠ vpcID) →
        route53GetVPCAssociation (.ok (l₁ ++ v :: l₂)) zoneID vpcID = .ok (some v)) ∧
    (∀ vpcs : List VPC,
        (∀ u ∈ vpcs, stringValue u.vpcId ≠ vpcID) →
        route53GetVPCAssociation (.ok vpcs) zoneID vpcID = .ok none) ∧
    (∀ e : GoErr, route53GetVPCAssociation (.error e) zoneID vpcID = .error e) :=
  ⟨fun l₁ v l₂ hv hnone => route53Get_found zoneID vpcID hz l₁ v l₂ hv hnone,
   fun vpcs hnone => route53Get_not_found zoneID vpcID hz vpcs hnone,
   fun e => route53Get_error zoneID vpcID hz e⟩

theorem route53GetVPCAssociation_scan_witness :
    route53GetVPCAssociation
      (.ok [⟨some (String.toList "v1"), none⟩, ⟨some (String.toList "v2"), none⟩])
      (String.toList "Z1") (String.toList "v2")
      = .ok (some ⟨some (String.toList "v2"), none⟩) ∧
    route53GetVPCAssociation
      (.ok [⟨some (String.toList "v1"), none⟩, ⟨some (String.toList "v2"), none⟩])
      (String.toList "Z1") (String.toList "v3")
      = .ok none :=
  ⟨(route53GetVPCAssociation_scan (String.toList "Z1") (String.toList "v2") (by decide)).1
      [⟨some (String.toList "v1"), none⟩] ⟨some (String.toList "v2"), none⟩ []
      (by decide) (by decide),
   (route53GetVPCAssociation_scan (String.toList "Z1") (String.toList "v3") (by decide)).2.1
      [⟨some (String.toList "v1"), none⟩, ⟨some (String.toList "v2"), none⟩]
      (by decide)⟩

/-- C4: evaluation of the Delete handler at the failing input.  With a
well-formed identifier and a delete call that fails with an API error,
the handler still returns the unchanged state and no error: the outcome
of the remote call is assigned and then discarded, so the transport error
is not wrapped or propagated as the claim states. -/
theorem route53Delete_discards_api_error :
    resourceAwsRoute53CreateVPCAssociationAuthorizationDelete
      (fun _ => .error (.awsApi (String.toList "InvalidInput") (String.toList "simulated failure")))
      { id := String.toList "Z1:V1", zone_id := String.toList "Z1",
        vpc_id := String.toList "V1", vpc_region := String.toList "us-east-1" }
      = ({ id := String.toList "Z1:V1", zone_id := String.toList "Z1",
           vpc_id := String.toList "V1", vpc_region := String.toList "us-east-1" }, none) := by
  decide

/-- C5 counterexample: with a remote that reports absence every time, the
first Read clears the identifier and returns no error, but the second
Read, on the already-cleared resource, returns the malformed-identifier
format error instead of the no-error outcome the claim states. -/
theorem read_recleared_returns_error_cex :
    (resourceAwsRoute53CreateVPCAssociationAuthorizationRead (fun _ => .ok [])
        { id := String.toList "Z1:V1", zone_id := String.toList "Z1",
          vpc_id := String.toList "V1", vpc_region := String.toList "us-east-1" }
      = ({ id := [], zone_id := String.toList "Z1", vpc_id := String.toList "V1",
           vpc_region := String.toList "us-east-1" }, none)) ∧
    (resourceAwsRoute53CreateVPCAssociationAuthorizationRead (fun _ => .ok [])
        { id := [], zone_id := String.toList "Z1", vpc_id := String.toList "V1",
          vpc_region := String.toList "us-east-1" }
      = ({ id := [], zone_id := String.toList "Z1", vpc_id := String.toList "V1",
           vpc_region := String.toList "us-east-1" },
         some (.unexpectedIdFormat []))) := by
  decide

/-- C5 amended: for every stored identifier that decodes successfully, if
the remote reports absence (a NoSuchHostedZone error, or a page in which
the target VPC id does not occur), Read clears the identifier and returns
no error; a second Read on the already-cleared resource leaves the
cleared state unchanged but returns the malformed-identifier format
error, because the empty identifier no longer parses. -/
theorem read_notfound_clears_state
    (remote : GoStr → Except GoErr (List VPC)) (d : Route53AuthResourceData)
    (zoneID vpcID : GoStr)
    (hp : resourceAwsRoute53VPCAssociationAuthorizationParseId d.id = (zoneID, vpcID, none))
    (habs : (∃ vpcs, remote zoneID = .ok vpcs ∧ ∀ u ∈ vpcs, stringValue u.vpcId ≠ vpcID) ∨
            (∃ msg, remote zoneID = .error (.awsApi errCodeNoSuchHostedZone msg))) :
    resourceAwsRoute53CreateVPCAssociationAuthorizationRead remote d
      = ({ d with id := [] }, none) ∧
    resourceAwsRoute53CreateVPCAssociationAuthorizationRead remote { d with id := [] }
      = ({ d with id := [] }, some (.unexpectedIdFormat [])) := by
  obtain ⟨hid, hz, hv, hca, hcb⟩ := parseId_ok_shape d.id zoneID vpcID hp
  constructor
  · unfold resourceAwsRoute53CreateVPCAssociationAuthorizationRead
    rcases habs with ⟨vpcs, hrem, hnone⟩ | ⟨msg, hrem⟩
    · simp [hp, hrem, route53Get_not_found zoneID vpcID hz vpcs hnone]
    · simp [hp, hrem, route53Get_error zoneID vpcID hz, isAWSErr, List.nil_infix]
  · rfl

theorem read_notfound_clears_state_witness :
    resourceAwsRoute53CreateVPCAssociationAuthorizationRead (fun _ => .ok [])
      { id := String.toList "Z9:V9", zone_id := String.toList "Z9",
        vpc_id := String.toList "V9", vpc_region := [] }
      = ({ id := [], zone_id := String.toList "Z9", vpc_id := String.toList "V9",
           vpc_region := [] }, none) ∧
    resourceAwsRoute53CreateVPCAssociationAuthorizationRead (fun _ => .ok [])
      { id := [], zone_id := String.toList "Z9", vpc_id := String.toList "V9",
        vpc_region := [] }
      = ({ id := [], zone_id := String.toList "Z9", vpc_id := String.toList "V9",
           vpc_region := [] }, some (.unexpectedIdFormat [])) :=
  read_notfound_clears_state (fun _ => .ok [])
    { id := String.toList "Z9:V9", zone_id := String.toList "Z9",
      vpc_id := String.toList "V9", vpc_region := [] }
    (String.toList "Z9") (String.toList "V9") (by decide)
    (.inl ⟨[], rfl, by simp⟩)

/-- C6: the request built by the Create handler carries the configured
zone and vpc ids, and a VPCRegion equal to the configured vpc_region when
that attribute is non-empty and to the ambient client region otherwise;
when the authorize call succeeds the handler stores the composite
identifier zone colon vpc and then delegates to the Read handler on that
updated state. -/
theorem create_region_fallback_and_id (region : GoStr)
    (createCall : CreateVPCAssociationAuthorizationInput → Except GoErr Unit)
    (remote : GoStr → Except GoErr (List VPC))
    (d : Route53AuthResourceData) :
    ((route53CreateVPCAuthInput region d).vpcRegion
      = some (if d.vpc_region = [] then region else d.vpc_region)) ∧
    ((route53CreateVPCAuthInput region d).hostedZoneId = some d.zone_id) ∧
    ((route53CreateVPCAuthInput region d).vpcId = some d.vpc_id) ∧
    (createCall (route53CreateVPCAuthInput region d) = .ok () →
      resourceAwsRoute53CreateVPCAssociationAuthorizationCreate region createCall remote d
        = resourceAwsRoute53CreateVPCAssociationAuthorizationRead remote
            { d with id := route53AuthEncodeId d.zone_id d.vpc_id }) := by
  refine ⟨?_, ?_, ?_, ?_⟩
  · simp only [route53CreateVPCAuthInput]
    by_cases h : d.vpc_region = []
    · simp [h]
    · simp [h]
  · simp only [route53CreateVPCAuthInput]
    split <;> rfl
  · simp only [route53CreateVPCAuthInput]
    split <;> rfl
  · intro hc
    have hz : stringValue (route53CreateVPCAuthInput region d).hostedZoneId = d.zone_id := by
      simp only [route53CreateVPCAuthInput]
      split <;> rfl
    have hv : stringValue (route53CreateVPCAuthInput region d).vpcId = d.vpc_id := by
      simp only [route53CreateVPCAuthInput]
      split <;> rfl
    simp only [resourceAwsRoute53CreateVPCAssociationAuthorizationCreate]
    rw [hc]
    simp only [hz, hv]

theorem create_region_fallback_and_id_witness :
    (route53CreateVPCAuthInput (String.toList "us-east-1")
        { id := [], zone_id := String.toList "Z1", vpc_id := String.toList "V1",
          vpc_region := [] }).vpcRegion = some (String.toList "us-east-1") ∧
    resourceAwsRoute53CreateVPCAssociationAuthorizationCreate (String.toList "us-east-1")
        (fun _ => .ok ()) (fun _ => .ok [])
        { id := [], zone_id := String.toList "Z1", vpc_id := String.toList "V1",
          vpc_region := [] }
      = resourceAwsRoute53CreateVPCAssociationAuthorizationRead (fun _ => .ok [])
          { id := route53AuthEncodeId (String.toList "Z1") (String.toList "V1"),
            zone_id := String.toList "Z1", vpc_id := String.toList "V1",
            vpc_region := [] } := by
  constructor
  · have h := (create_region_fallback_and_id (String.toList "us-east-1")
      (fun _ => .ok ()) (fun _ => .ok [])
      { id := [], zone_id := String.toList "Z1", vpc_id := String.toList "V1",
        vpc_region := [] }).1
    simpa using h
  · exact (create_region_fallback_and_id (String.toList "us-east-1")
      (fun _ => .ok ()) (fun _ => .ok [])
      { id := [], zone_id := String.toList "Z1", vpc_id := String.toList "V1",
        vpc_region := [] }).2.2.2 rfl

/-- C7: expanding a configuration whose managed_scaling block leaves a
leaf zero-valued omits that field (none) from the request struct, for
target_capacity and every other optional numeric or string leaf; while
flattening a response whose managed scaling carries target_capacity 100
produces a tree in which target_capacity is present with value 100. -/
theorem expand_flatten_asymmetry :
    (∀ (p : AutoScalingGroupProviderConfig) (ps : List AutoScalingGroupProviderConfig)
       (ms : ManagedScalingConfig) (rest : List ManagedScalingConfig),
       p.managed_scaling = ms :: rest →
       ∃ prov m, expandAutoScalingGroupProvider (p :: ps) = some prov ∧
         prov.managedScaling = some m ∧
         (ms.target_capacity = 0 → m.targetCapacity = none) ∧
         (ms.maximum_scaling_step_size = 0 → m.maximumScalingStepSize = none) ∧
         (ms.minimum_scaling_step_size = 0 → m.minimumScalingStepSize = none) ∧
         (ms.status = [] → m.status = none) ∧
         (p.managed_termination_protection = [] →
           prov.managedTerminationProtection = none)) ∧
    (∀ (prov : AutoScalingGroupProvider) (m : ManagedScaling),
       prov.managedScaling = some m → m.targetCapacity = some 100 →
       ∃ (flat : AutoScalingGroupProviderConfig) (fm : ManagedScalingConfig),
         flattenAutoScalingGroupProvider (some prov) = some [flat] ∧
         flat.managed_scaling = [fm] ∧ fm.target_capacity = 100) := by
  constructor
  · intro p ps ms rest hms
    simp only [expandAutoScalingGroupProvider, hms]
    refine ⟨_, _, rfl, rfl, ?_, ?_, ?_, ?_, ?_⟩
    · intro h
      simp [h]
    · intro h
      simp [h]
    · intro h
      simp [h]
    · intro h
      simp [h]
    · intro h
      simp [h]
  · intro prov m hpm htc
    simp only [flattenAutoScalingGroupProvider, hpm]
    refine ⟨_, _, rfl, rfl, ?_⟩
    simp [htc, int64Value]

theorem expand_flatten_asymmetry_witness :
    (∃ prov m, expandAutoScalingGroupProvider
        [{ auto_scaling_group_arn := String.toList "asgArn",
           managed_termination_protection := [],
           managed_scaling := [{ maximum_scaling_step_size := 0,
                                 minimum_scaling_step_size := 0,
                                 status := [], target_capacity := 0 }] }]
        = some prov ∧
       prov.managedScaling = some m ∧ m.targetCapacity = none) ∧
    (∃ flat fm, flattenAutoScalingGroupProvider
        (some { autoScalingGroupArn := some (String.toList "asgArn"),
                managedTerminationProtection := none,
                managedScaling := some { maximumScalingStepSize := none,
                                         minimumScalingStepSize := none,
                                         status := none,
                                         targetCapacity := some 100 } })
        = some [flat] ∧ flat.managed_scaling = [fm] ∧ fm.target_capacity = 100) := by
  constructor
  · obtain ⟨prov, m, h1, h2, h3, -, -, -, -⟩ := expand_flatten_asymmetry.1
      { auto_scaling_group_arn := String.toList "asgArn",
        managed_termination_protection := [],
        managed_scaling := [{ maximum_scaling_step_size := 0,
                              minimum_scaling_step_size := 0,
                              status := [], target_capacity := 0 }] }
      []
      { maximum_scaling_step_size := 0, minimum_scaling_step_size := 0,
        status := [], target_capacity := 0 }
      [] rfl
    exact ⟨prov, m, h1, h2, h3 rfl⟩
  · exact expand_flatten_asymmetry.2
      { autoScalingGroupArn := some (String.toList "asgArn"),
        managedTerminationProtection := none,
        managedScaling := some { maximumScalingStepSize := none,
                                 minimumScalingStepSize := none,
                                 status := none, targetCapacity := some 100 } }
      { maximumScalingStepSize := none, minimumScalingStepSize := none,
        status := none, targetCapacity := some 100 }
      rfl rfl

/-- C8: flatten of a non-nil provider whose managed scaling field is nil
reaches the unconditional dereference and panics (modelled as none);
flatten of the nil provider returns the nil slice without touching the
field; and flatten is total on every provider whose managed scaling field
is non-nil — so totality holds exactly under that precondition. -/
theorem flatten_requires_managed_scaling :
    (∀ prov : AutoScalingGroupProvider, prov.managedScaling = none →
      flattenAutoScalingGroupProvider (some prov) = none) ∧
    (flattenAutoScalingGroupProvider none = some []) ∧
    (∀ (prov : AutoScalingGroupProvider) (m : ManagedScaling),
      prov.managedScaling = some m →
      (flattenAutoScalingGroupProvider (some prov)).isSome = true) := by
  refine ⟨?_, rfl, ?_⟩
  · intro prov h
    simp [flattenAutoScalingGroupProvider, h]
  · intro prov m h
    simp [flattenAutoScalingGroupProvider, h]

theorem flatten_requires_managed_scaling_witness :
    flattenAutoScalingGroupProvider
      (some { autoScalingGroupArn := some (String.toList "asgArn"),
              managedTerminationProtection := none,
              managedScaling := none }) = none :=
  flatten_requires_managed_scaling.1
    { autoScalingGroupArn := some (String.toList "asgArn"),
      managedTerminationProtection := none, managedScaling := none } rfl

/-- C9: the ECS capacity provider Delete operation issues no remote API
call and returns no error, leaving the handler state untouched; under the
engine convention that a successful delete drops the resource from
tracked state, its only effect is local removal of the object. -/
theorem ecs_delete_local_noop (tracked : List EcsCapacityProviderData)
    (d : EcsCapacityProviderData) :
    resourceAwsEcsCapacityProviderDelete d = (d, [], none) ∧
    engineApplyDelete tracked d
      = (tracked.filter (fun r => decide (r.id ≠ d.id)), [], none) :=
  ⟨rfl, rfl⟩

/-- C10: the import handler sets the name attribute to the user-supplied
short name and replaces the identifier with the ARN string
arn colon partition colon ecs colon region colon account colon
capacity-provider slash name, built from the ambient context, and returns
that single resource with no error. -/
theorem ecs_import_reconstructs_arn (meta : AWSClientMeta)
    (d : EcsCapacityProviderData) :
    resourceAwsEcsCapacityProviderImport meta d
      = ([{ id := String.toList "arn:" ++ meta.partition ++ String.toList ":ecs:"
              ++ meta.region ++ [':'] ++ meta.accountid
              ++ String.toList ":capacity-provider/" ++ d.id,
            name := d.id }], none) := by
  have h1 : String.toList "arn" = ['a', 'r', 'n'] := rfl
  have h2 : String.toList "arn:" = ['a', 'r', 'n', ':'] := rfl
  have h3 : String.toList "ecs" = ['e', 'c', 's'] := rfl
  have h4 : String.toList ":ecs:" = [':', 'e', 'c', 's', ':'] := rfl
  have h5 : String.toList "capacity-provider/" =
      ['c', 'a', 'p', 'a', 'c', 'i', 't', 'y', '-',
       'p', 'r', 'o', 'v', 'i', 'd', 'e', 'r', '/'] := rfl
  have h6 : String.toList ":capacity-provider/" =
      [':', 'c', 'a', 'p', 'a', 'c', 'i', 't', 'y', '-',
       'p', 'r', 'o', 'v', 'i', 'd', 'e', 'r', '/'] := rfl
  simp [resourceAwsEcsCapacityProviderImport, arnString,
    h1, h2, h3, h4, h5, h6, List.append_assoc]
